import Mathlib

/-!
Verification of the quicker QUIC implementation core against its design
specification.  The TypeScript sources under scrutiny are shallowly embedded
over `List Nat` byte buffers:

* `src/utilities/parsers/frame.parser.ts` (class FrameParser),
* `src/congestion-control/congestion.control.ts` (class CongestionControl),
* `src/crypto/transport.parameters.ts` (class TransportParameters),
* `src/quicker/server.ts` (Server.onMessage, version-negotiation branch).

Node `Buffer` reads are modelled as partial functions returning `Option`
(`none` models a thrown RangeError); `Buffer.copy` into a freshly allocated
zeroed target is modelled by `bufCopy` (clamped copy, zero padding);
`Buffer.toString(enc, start, end)` is modelled by `bufSubstring` (clamped
slice `[start, end)`).  Bignum values (62-bit integers in the source) are
modelled as `Nat`.
-/

namespace Quicker

/-- Node `buffer.readUInt8(off)`: the byte at `off`, RangeError past the end. -/
def readUInt8 (buf : List Nat) (off : Nat) : Option Nat :=
  buf[off]?

/-- Node `buffer.readUInt16BE(off)`: big-endian 16-bit read, RangeError past the end. -/
def readUInt16BE (buf : List Nat) (off : Nat) : Option Nat :=
  match buf[off]?, buf[off + 1]? with
  | some a, some b => some (a * 256 + b)
  | _, _ => none

/-- Node `buffer.readUIntBE(off, len)`: big-endian read of `len` bytes
(the source only calls it with `1 ≤ len ≤ 4`), RangeError when out of range. -/
def readUIntBE (buf : List Nat) (off len : Nat) : Option Nat :=
  if off + len ≤ buf.length ∧ 1 ≤ len then
    some (((buf.drop off).take len).foldl (fun acc b => acc * 256 + b) 0)
  else none

/-- Node `source.copy(Buffer.alloc(len), 0, off, off + len)`: the bytes of
`source` in `[off, off + len)`, zero-padded to length `len` when the source
runs out (the allocated target stays zero there). -/
def bufCopy (buf : List Nat) (off len : Nat) : List Nat :=
  let s := (buf.drop off).take len
  s ++ List.replicate (len - s.length) 0

/-- Node `buffer.toString(utf8, start, end)` as raw bytes: the clamped slice
`[start, end)`; empty when `end ≤ start`. -/
def bufSubstring (buf : List Nat) (start stop : Nat) : List Nat :=
  (buf.take stop).drop start

namespace VLIE

/-- Modelled from the spec: the VLIE codec (src/crypto/vlie.ts is not under
src/).  The two high bits of the first byte encode the length class
(1/2/4/8 bytes); the remaining bits form a big-endian unsigned integer.
`decode(buf, off)` returns `(value, new_off)` and fails when the encoding
extends past the end of the buffer. -/
def decode (buf : List Nat) (off : Nat) : Option (Nat × Nat) :=
  match buf[off]? with
  | none => none
  | some b =>
    let len := 2 ^ (b / 64)
    if off + len ≤ buf.length then
      some (((List.range (len - 1)).foldl
               (fun acc i => acc * 256 + buf.getD (off + 1 + i) 0) (b % 64)),
            off + len)
    else none

end VLIE

/- The frame-type byte constants of base.frame.ts.
Modelled from the spec: base.frame.ts is not under src/; the values follow
the spec's frame-type table (`0x00 PADDING` … `0x0c STOP_SENDING`,
`0x0d ACK`, `0x0e/0f PATH_CHALLENGE/RESPONSE`, `0x10-0x17 STREAM`,
`0x18 CRYPTO`, and ACK_ECN at the later-draft value 0x1a the spec notes). -/
namespace FrameType

def PADDING : Nat := 0x00

def RST_STREAM : Nat := 0x01

def CONNECTION_CLOSE : Nat := 0x02

def APPLICATION_CLOSE : Nat := 0x03

def MAX_DATA : Nat := 0x04

def MAX_STREAM_DATA : Nat := 0x05

def MAX_STREAM_ID : Nat := 0x06

def PING : Nat := 0x07

def BLOCKED : Nat := 0x08

def STREAM_BLOCKED : Nat := 0x09

def STREAM_ID_BLOCKED : Nat := 0x0a

def NEW_CONNECTION_ID : Nat := 0x0b

def STOP_SENDING : Nat := 0x0c

def ACK : Nat := 0x0d

def PATH_CHALLENGE : Nat := 0x0e

def PATH_RESPONSE : Nat := 0x0f

def STREAM : Nat := 0x10

def STREAM_MAX_NR : Nat := 0x17

def CRYPTO : Nat := 0x18

def ACK_ECN : Nat := 0x1a

end FrameType

/-- The typed frames produced by the decoder (the BaseFrame class hierarchy
flattened to a sum type; each constructor carries the fields the corresponding
FrameFactory call records). -/
inductive Frame where
  | padding (paddingSize : Nat)
  | rstStream (streamID applicationErrorCode finalOffset : Nat)
  | connectionClose (errorCode : Nat) (phrase : List Nat)
  | applicationClose (errorCode : Nat) (phrase : List Nat)
  | maxData (maxData : Nat)
  | maxStreamData (streamID maxStreamData : Nat)
  | maxStreamId (maxStreamID : Nat)
  | ping
  | blocked (blockedOffset : Nat)
  | streamBlocked (streamID blockedOffset : Nat)
  | streamIdBlocked (streamID : Nat)
  | newConnectionId (sequence : Nat) (connectionID statelessResetToken : List Nat)
  | stopSending (streamID applicationErrorCode : Nat)
  | pathChallenge (data : List Nat)
  | pathResponse (data : List Nat)
  | crypto (data : List Nat) (cryptoOffset : Nat)
  | ack (containsECNinfo : Bool) (largestAcknowledged ackDelay ackBlockCount firstAckBlock : Nat)
        (ackBlocks : List (Nat × Nat)) (ecnCounts : Option (Nat × Nat × Nat))
  | stream (streamID : Nat) (data : List Nat) (fin : Bool) (dataOffset dataLength : Nat)
deriving DecidableEq

/-- Result of `FrameParser.parseFrame`: a frame with the offset one past it,
`stop` for the `undefined` returns (offset past the end, or an unidentified
type byte), `err` when a buffer read throws. -/
inductive FrameResult where
  | frame (f : Frame) (offset : Nat)
  | stop
  | err
deriving DecidableEq

namespace FrameParser

/-- The `while (offset < buffer.byteLength && buffer.readUInt8(offset) === 0) offset++`
loop of parsePadding: the offset of the first non-zero byte at or after `off`
(or the end of the buffer). -/
def padLoop (buffer : List Nat) (offset : Nat) : Nat :=
  if _h : offset < buffer.length then
    if buffer.getD offset 0 = 0 then padLoop buffer (offset + 1) else offset
  else offset
termination_by buffer.length - offset

/-- frame.parser.ts parsePadding: coalesces the run of zero bytes starting at
`offset` (the 0x00 type byte itself was already consumed by parseFrame). -/
def parsePadding (buffer : List Nat) (offset : Nat) : Option (Frame × Nat) :=
  let stop := padLoop buffer offset
  some (.padding (stop - offset), stop)

/-- frame.parser.ts parseRstStream. -/
def parseRstStream (buffer : List Nat) (offset : Nat) : Option (Frame × Nat) :=
  match VLIE.decode buffer offset with
  | none => none
  | some (streamID, o1) =>
    match readUInt16BE buffer o1 with
    | none => none
    | some applicationErrorCode =>
      match VLIE.decode buffer (o1 + 2) with
      | none => none
      | some (finalOffset, o2) =>
        some (.rstStream streamID applicationErrorCode finalOffset, o2)

/-- frame.parser.ts parseClose: reads the 16-bit error code, VLIE-decodes the
reason-phrase length, then takes
`buffer.toString(utf8, phraseLength.offset, phraseLength.value)` as the phrase
(note: the decoded value is used as the slice END, its end offset as the
slice START) and returns offset `phraseLength.offset + phraseLength.value`. -/
def parseClose (type : Nat) (buffer : List Nat) (offset : Nat) : Option (Frame × Nat) :=
  match readUInt16BE buffer offset with
  | none => none
  | some errorCode =>
    match VLIE.decode buffer (offset + 2) with
    | none => none
    | some (phraseLengthValue, phraseLengthOffset) =>
      let phrase := bufSubstring buffer phraseLengthOffset phraseLengthValue
      let newOffset := phraseLengthOffset + phraseLengthValue
      if type = FrameType.APPLICATION_CLOSE then
        some (.applicationClose errorCode phrase, newOffset)
      else
        some (.connectionClose errorCode phrase, newOffset)

/-- frame.parser.ts parseMaxData. -/
def parseMaxData (buffer : List Nat) (offset : Nat) : Option (Frame × Nat) :=
  match VLIE.decode buffer offset with
  | none => none
  | some (v, o1) => some (.maxData v, o1)

/-- frame.parser.ts parseMaxStreamData. -/
def parseMaxStreamData (buffer : List Nat) (offset : Nat) : Option (Frame × Nat) :=
  match VLIE.decode buffer offset with
  | none => none
  | some (streamID, o1) =>
    match VLIE.decode buffer o1 with
    | none => none
    | some (v, o2) => some (.maxStreamData streamID v, o2)

/-- frame.parser.ts parseMaxStreamId. -/
def parseMaxStreamId (buffer : List Nat) (offset : Nat) : Option (Frame × Nat) :=
  match VLIE.decode buffer offset with
  | none => none
  | some (v, o1) => some (.maxStreamId v, o1)

/-- frame.parser.ts parsePing: no body, the offset is returned unchanged. -/
def parsePing (buffer : List Nat) (offset : Nat) : Option (Frame × Nat) :=
  some (.ping, offset)

/-- frame.parser.ts parseBlocked. -/
def parseBlocked (buffer : List Nat) (offset : Nat) : Option (Frame × Nat) :=
  match VLIE.decode buffer offset with
  | none => none
  | some (v, o1) => some (.blocked v, o1)

/-- frame.parser.ts parseStreamBlocked. -/
def parseStreamBlocked (buffer : List Nat) (offset : Nat) : Option (Frame × Nat) :=
  match VLIE.decode buffer offset with
  | none => none
  | some (streamID, o1) =>
    match VLIE.decode buffer o1 with
    | none => none
    | some (v, o2) => some (.streamBlocked streamID v, o2)

/-- frame.parser.ts parseStreamIdBlocked. -/
def parseStreamIdBlocked (buffer : List Nat) (offset : Nat) : Option (Frame × Nat) :=
  match VLIE.decode buffer offset with
  | none => none
  | some (streamID, o1) => some (.streamIdBlocked streamID, o1)

/-- frame.parser.ts parseNewConnectionId. -/
def parseNewConnectionId (buffer : List Nat) (offset : Nat) : Option (Frame × Nat) :=
  match VLIE.decode buffer offset with
  | none => none
  | some (sequence, o1) =>
    match readUInt8 buffer o1 with
    | none => none
    | some connectionIDLength =>
      let connectionID := bufCopy buffer (o1 + 1) connectionIDLength
      let o2 := o1 + 1 + connectionIDLength
      let statelessResetToken := bufCopy buffer o2 16
      some (.newConnectionId sequence connectionID statelessResetToken, o2 + 16)

/-- frame.parser.ts parseStopSending. -/
def parseStopSending (buffer : List Nat) (offset : Nat) : Option (Frame × Nat) :=
  match VLIE.decode buffer offset with
  | none => none
  | some (streamID, o1) =>
    match readUInt16BE buffer o1 with
    | none => none
    | some appErrorCode => some (.stopSending streamID appErrorCode, o1 + 2)

/-- The `for(i = 1; i ≤ ackBlockCount; i++)` loop of parseAck: VLIE-decodes
`count` (gap, block) pairs in order. -/
def ackBlockLoop (buffer : List Nat) (count offset : Nat) :
    Option (List (Nat × Nat) × Nat) :=
  match count with
  | 0 => some ([], offset)
  | n + 1 =>
    match VLIE.decode buffer offset with
    | none => none
    | some (gap, o1) =>
      match VLIE.decode buffer o1 with
      | none => none
      | some (block, o2) =>
        match ackBlockLoop buffer n o2 with
        | none => none
        | some (rest, oEnd) => some ((gap, block) :: rest, oEnd)

/-- frame.parser.ts parseAck: decodes largest/delay/block count/first block
and the ack blocks; for ACK_ECN (`containsECNinfo`), when the offset is not
already exactly at the end of the buffer, additionally decodes the three
ECT0/ECT1/CE counts and stores them on the frame. -/
def parseAck (containsECNinfo : Bool) (buffer : List Nat) (offset : Nat) :
    Option (Frame × Nat) :=
  match VLIE.decode buffer offset with
  | none => none
  | some (largestAcknowledged, o1) =>
    match VLIE.decode buffer o1 with
    | none => none
    | some (ackDelay, o2) =>
      match VLIE.decode buffer o2 with
      | none => none
      | some (ackBlockCount, o3) =>
        match VLIE.decode buffer o3 with
        | none => none
        | some (firstAckBlock, o4) =>
          match ackBlockLoop buffer ackBlockCount o4 with
          | none => none
          | some (ackBlocks, o5) =>
            if containsECNinfo then
              if o5 = buffer.length then
                some (.ack containsECNinfo largestAcknowledged ackDelay
                        ackBlockCount firstAckBlock ackBlocks none, o5)
              else
                match VLIE.decode buffer o5 with
                | none => none
                | some (ect0, p1) =>
                  match VLIE.decode buffer p1 with
                  | none => none
                  | some (ect1, p2) =>
                    match VLIE.decode buffer p2 with
                    | none => none
                    | some (ce, p3) =>
                      some (.ack containsECNinfo largestAcknowledged ackDelay
                              ackBlockCount firstAckBlock ackBlocks
                              (some (ect0, ect1, ce)), p3)
            else
              some (.ack containsECNinfo largestAcknowledged ackDelay
                      ackBlockCount firstAckBlock ackBlocks none, o5)

/-- Constants.PATH_CHALLENGE_PAYLOAD_SIZE.  Modelled from the spec:
constants.ts is not under src/; the spec fixes an 8-byte opaque payload. -/
def PATH_CHALLENGE_PAYLOAD_SIZE : Nat := 8

/-- Constants.PATH_RESPONSE_PAYLOAD_SIZE.  Modelled from the spec, as above. -/
def PATH_RESPONSE_PAYLOAD_SIZE : Nat := 8

/-- frame.parser.ts parsePathChallenge. -/
def parsePathChallenge (buffer : List Nat) (offset : Nat) : Option (Frame × Nat) :=
  some (.pathChallenge (bufCopy buffer offset PATH_CHALLENGE_PAYLOAD_SIZE),
        offset + PATH_CHALLENGE_PAYLOAD_SIZE)

/-- frame.parser.ts parsePathResponse. -/
def parsePathResponse (buffer : List Nat) (offset : Nat) : Option (Frame × Nat) :=
  some (.pathResponse (bufCopy buffer offset PATH_RESPONSE_PAYLOAD_SIZE),
        offset + PATH_RESPONSE_PAYLOAD_SIZE)

/-- frame.parser.ts parseCrypto. -/
def parseCrypto (buffer : List Nat) (offset : Nat) : Option (Frame × Nat) :=
  match VLIE.decode buffer offset with
  | none => none
  | some (cryptooffset, o1) =>
    match VLIE.decode buffer o1 with
    | none => none
    | some (length, o2) =>
      some (.crypto (bufCopy buffer o2 length) cryptooffset, o2 + length)

/-- frame.parser.ts parseStream: FIN/LEN/OFF from bits 0/1/2 of the type byte;
the data offset defaults to 0 without OFF, the data length defaults to the
remaining bytes of the buffer without LEN. -/
def parseStream (type : Nat) (buffer : List Nat) (offset : Nat) : Option (Frame × Nat) :=
  match VLIE.decode buffer offset with
  | none => none
  | some (streamID, o1) =>
    match (if type &&& 0x04 != 0 then VLIE.decode buffer o1 else some (0, o1)) with
    | none => none
    | some (dataOffset, o2) =>
      match (if type &&& 0x02 != 0 then VLIE.decode buffer o2
             else some (buffer.length - o2, o2)) with
      | none => none
      | some (dataLength, o3) =>
        some (.stream streamID (bufCopy buffer o3 dataLength) (type &&& 0x01 != 0)
                dataOffset dataLength,
              o3 + dataLength)

/-- The switch statement of frame.parser.ts parseFrame, dispatching on the
type byte already consumed at `o - 1`: `none` stands for falling through the
switch to the unidentified-frame return, `some r` for the chosen case's
result (itself `none` when that body parser threw). -/
def dispatchFrame (type : Nat) (buffer : List Nat) (o : Nat) :
    Option (Option (Frame × Nat)) :=
  match type with
  | 0x00 => some (parsePadding buffer o)
  | 0x01 => some (parseRstStream buffer o)
  | 0x02 => some (parseClose FrameType.CONNECTION_CLOSE buffer o)
  | 0x03 => some (parseClose FrameType.APPLICATION_CLOSE buffer o)
  | 0x04 => some (parseMaxData buffer o)
  | 0x05 => some (parseMaxStreamData buffer o)
  | 0x06 => some (parseMaxStreamId buffer o)
  | 0x07 => some (parsePing buffer o)
  | 0x08 => some (parseBlocked buffer o)
  | 0x09 => some (parseStreamBlocked buffer o)
  | 0x0a => some (parseStreamIdBlocked buffer o)
  | 0x0b => some (parseNewConnectionId buffer o)
  | 0x0c => some (parseStopSending buffer o)
  | 0x0d => some (parseAck false buffer o)
  | 0x0e => some (parsePathChallenge buffer o)
  | 0x0f => some (parsePathResponse buffer o)
  | 0x18 => some (parseCrypto buffer o)
  | 0x1a => some (parseAck true buffer o)
  | t =>
    if FrameType.STREAM ≤ t ∧ t ≤ FrameType.STREAM_MAX_NR then
      some (parseStream t buffer o)
    else none

/-- frame.parser.ts parseFrame: reads the type byte (consuming it), then
dispatches on the 18 switch cases and the STREAM range; an unidentified type
returns `undefined` (modelled by `stop`), as does an offset at or past the
end of the buffer. -/
def parseFrame (buffer : List Nat) (offset : Nat) : FrameResult :=
  if buffer.length ≤ offset then .stop
  else
    match dispatchFrame (buffer.getD offset 0) buffer (offset + 1) with
    | none => .stop
    | some none => .err
    | some (some (f, o2)) => .frame f o2

/-- A type byte the parseFrame dispatch identifies: one of the 18 switch
cases or the STREAM range. -/
def knownFrameType (type : Nat) : Bool :=
  type ≤ FrameType.CRYPTO || type == FrameType.ACK_ECN

/-- VLIE.decode advances the offset by its 1/2/4/8-byte length class and
stays inside the buffer. -/
def decode_bounds : ∀ buffer offset v e,
    VLIE.decode buffer offset = some (v, e) → offset < e ∧ e ≤ buffer.length := by
  intro buffer offset v e h
  unfold VLIE.decode at h
  split at h
  · exact absurd h (by simp)
  · rename_i b _
    simp only at h
    split at h
    · rename_i hle
      cases h
      refine ⟨?_, hle⟩
      have : 0 < 2 ^ (b / 64) := Nat.pos_pow_of_pos _ (by omega)
      omega
    · exact absurd h (by simp)

/-- padLoop never moves backwards. -/
def padLoop_ge : ∀ buffer offset, offset ≤ padLoop buffer offset := by
  intro buffer offset
  unfold padLoop
  split
  · split
    · have := padLoop_ge buffer (offset + 1)
      omega
    · omega
  · omega
termination_by buffer offset => buffer.length - offset

/-- ackBlockLoop never moves backwards. -/
def ackBlockLoop_ge : ∀ buffer count offset p,
    ackBlockLoop buffer count offset = some p → offset ≤ p.2 := by
  intro buffer count
  induction count with
  | zero =>
    intro offset p h
    unfold ackBlockLoop at h
    cases h
    exact Nat.le_refl _
  | succ n ih =>
    intro offset p h
    unfold ackBlockLoop at h
    split at h
    · exact absurd h (by simp)
    · rename_i gap o1 h1
      split at h
      · exact absurd h (by simp)
      · rename_i block o2 h2
        split at h
        · exact absurd h (by simp)
        · rename_i rest oEnd h3
          cases h
          have b1 := decode_bounds buffer offset gap o1 h1
          have b2 := decode_bounds buffer o1 block o2 h2
          have b3 := ih o2 (rest, oEnd) h3
          simp only at b3
          omega

/-- Every frame-body parser returns an offset at or after its call offset. -/
def bodyParser_ge : ∀ buffer offset p,
    (parsePadding buffer offset = some p → offset ≤ p.2)
    ∧ (parseRstStream buffer offset = some p → offset ≤ p.2)
    ∧ (∀ t, parseClose t buffer offset = some p → offset ≤ p.2)
    ∧ (parseMaxData buffer offset = some p → offset ≤ p.2)
    ∧ (parseMaxStreamData buffer offset = some p → offset ≤ p.2)
    ∧ (parseMaxStreamId buffer offset = some p → offset ≤ p.2)
    ∧ (parsePing buffer offset = some p → offset ≤ p.2)
    ∧ (parseBlocked buffer offset = some p → offset ≤ p.2)
    ∧ (parseStreamBlocked buffer offset = some p → offset ≤ p.2)
    ∧ (parseStreamIdBlocked buffer offset = some p → offset ≤ p.2)
    ∧ (parseNewConnectionId buffer offset = some p → offset ≤ p.2)
    ∧ (parseStopSending buffer offset = some p → offset ≤ p.2)
    ∧ (∀ ecn, parseAck ecn buffer offset = some p → offset ≤ p.2)
    ∧ (parsePathChallenge buffer offset = some p → offset ≤ p.2)
    ∧ (parsePathResponse buffer offset = some p → offset ≤ p.2)
    ∧ (parseCrypto buffer offset = some p → offset ≤ p.2)
    ∧ (∀ t, parseStream t buffer offset = some p → offset ≤ p.2) := by
  intro buffer offset p
  refine ⟨?_, ?_, ?_, ?_, ?_, ?_, ?_, ?_, ?_, ?_, ?_, ?_, ?_, ?_, ?_, ?_, ?_⟩
  · intro h
    unfold parsePadding at h
    cases h
    exact padLoop_ge buffer offset
  · intro h
    unfold parseRstStream at h
    split at h
    · exact absurd h (by simp)
    · rename_i sid o1 h1
      split at h
      · exact absurd h (by simp)
      · split at h
        · exact absurd h (by simp)
        · rename_i fo o2 h2
          cases h
          have b1 := decode_bounds buffer offset sid o1 h1
          have b2 := decode_bounds buffer (o1 + 2) fo o2 h2
          omega
  · intro t h
    unfold parseClose at h
    split at h
    · exact absurd h (by simp)
    · split at h
      · exact absurd h (by simp)
      · rename_i plv plo h2
        have b2 := decode_bounds buffer (offset + 2) plv plo h2
        split at h <;> (cases h; omega)
  · intro h
    unfold parseMaxData at h
    split at h
    · exact absurd h (by simp)
    · rename_i v o1 h1
      cases h
      exact Nat.le_of_lt (decode_bounds buffer offset v o1 h1).1
  · intro h
    unfold parseMaxStreamData at h
    split at h
    · exact absurd h (by simp)
    · rename_i sid o1 h1
      split at h
      · exact absurd h (by simp)
      · rename_i v o2 h2
        cases h
        have b1 := decode_bounds buffer offset sid o1 h1
        have b2 := decode_bounds buffer o1 v o2 h2
        omega
  · intro h
    unfold parseMaxStreamId at h
    split at h
    · exact absurd h (by simp)
    · rename_i v o1 h1
      cases h
      exact Nat.le_of_lt (decode_bounds buffer offset v o1 h1).1
  · intro h
    unfold parsePing at h
    cases h
    exact Nat.le_refl _
  · intro h
    unfold parseBlocked at h
    split at h
    · exact absurd h (by simp)
    · rename_i v o1 h1
      cases h
      exact Nat.le_of_lt (decode_bounds buffer offset v o1 h1).1
  · intro h
    unfold parseStreamBlocked at h
    split at h
    · exact absurd h (by simp)
    · rename_i sid o1 h1
      split at h
      · exact absurd h (by simp)
      · rename_i v o2 h2
        cases h
        have b1 := decode_bounds buffer offset sid o1 h1
        have b2 := decode_bounds buffer o1 v o2 h2
        omega
  · intro h
    unfold parseStreamIdBlocked at h
    split at h
    · exact absurd h (by simp)
    · rename_i sid o1 h1
      cases h
      exact Nat.le_of_lt (decode_bounds buffer offset sid o1 h1).1
  · intro h
    unfold parseNewConnectionId at h
    split at h
    · exact absurd h (by simp)
    · rename_i seq o1 h1
      split at h
      · exact absurd h (by simp)
      · cases h
        have b1 := decode_bounds buffer offset seq o1 h1
        simp only
        omega
  · intro h
    unfold parseStopSending at h
    split at h
    · exact absurd h (by simp)
    · rename_i sid o1 h1
      split at h
      · exact absurd h (by simp)
      · cases h
        have b1 := decode_bounds buffer offset sid o1 h1
        simp only
        omega
  · intro ecn h
    unfold parseAck at h
    split at h
    · exact absurd h (by simp)
    · rename_i la o1 h1
      split at h
      · exact absurd h (by simp)
      · rename_i ad o2 h2
        split at h
        · exact absurd h (by simp)
        · rename_i bc o3 h3
          split at h
          · exact absurd h (by simp)
          · rename_i fb o4 h4
            split at h
            · exact absurd h (by simp)
            · rename_i blocks o5 h5
              have b1 := decode_bounds buffer offset la o1 h1
              have b2 := decode_bounds buffer o1 ad o2 h2
              have b3 := decode_bounds buffer o2 bc o3 h3
              have b4 := decode_bounds buffer o3 fb o4 h4
              have b5 := ackBlockLoop_ge buffer bc o4 (blocks, o5) h5
              simp only at b5
              split at h
              · split at h
                · cases h
                  omega
                · split at h
                  · exact absurd h (by simp)
                  · rename_i e0 p1 h6
                    split at h
                    · exact absurd h (by simp)
                    · rename_i e1 p2 h7
                      split at h
                      · exact absurd h (by simp)
                      · rename_i ce p3 h8
                        cases h
                        have b6 := decode_bounds buffer o5 e0 p1 h6
                        have b7 := decode_bounds buffer p1 e1 p2 h7
                        have b8 := decode_bounds buffer p2 ce p3 h8
                        omega
              · cases h
                omega
  · intro h
    unfold parsePathChallenge at h
    cases h
    simp only
    omega
  · intro h
    unfold parsePathResponse at h
    cases h
    simp only
    omega
  · intro h
    unfold parseCrypto at h
    split at h
    · exact absurd h (by simp)
    · rename_i co o1 h1
      split at h
      · exact absurd h (by simp)
      · rename_i len o2 h2
        cases h
        have b1 := decode_bounds buffer offset co o1 h1
        have b2 := decode_bounds buffer o1 len o2 h2
        simp only
        omega
  · intro t h
    unfold parseStream at h
    split at h
    · exact absurd h (by simp)
    · rename_i sid o1 h1
      split at h
      · exact absurd h (by simp)
      · rename_i doff o2 h2
        split at h
        · exact absurd h (by simp)
        · rename_i dlen o3 h3
          cases h
          have b1 := decode_bounds buffer offset sid o1 h1
          have b2 : o1 ≤ o2 := by
            split at h2
            · exact Nat.le_of_lt (decode_bounds buffer o1 doff o2 h2).1
            · cases h2
              exact Nat.le_refl _
          have b3 : o2 ≤ o3 := by
            split at h3
            · exact Nat.le_of_lt (decode_bounds buffer o2 dlen o3 h3).1
            · cases h3
              exact Nat.le_refl _
          simp only
          omega

/-- parseFrame only emits a frame when the type byte lies inside the buffer,
and then the returned offset is strictly past the type byte. -/
def parseFrame_advance : ∀ buffer offset f o2,
    parseFrame buffer offset = FrameResult.frame f o2 →
    offset < o2 ∧ offset < buffer.length := by
  intro buffer offset f o2 h
  unfold parseFrame at h
  split at h
  · exact absurd h (by simp)
  · rename_i hlen
    split at h
    · exact absurd h (by simp)
    · exact absurd h (by simp)
    · rename_i fr o2x heq
      cases h
      have hoff : offset + 1 ≤ (f, o2).2 := by
        have hb := bodyParser_ge buffer (offset + 1) (f, o2)
        unfold dispatchFrame at heq
        split at heq
        · exact hb.1 (Option.some.inj heq)
        · exact hb.2.1 (Option.some.inj heq)
        · exact hb.2.2.1 _ (Option.some.inj heq)
        · exact hb.2.2.1 _ (Option.some.inj heq)
        · exact hb.2.2.2.1 (Option.some.inj heq)
        · exact hb.2.2.2.2.1 (Option.some.inj heq)
        · exact hb.2.2.2.2.2.1 (Option.some.inj heq)
        · exact hb.2.2.2.2.2.2.1 (Option.some.inj heq)
        · exact hb.2.2.2.2.2.2.2.1 (Option.some.inj heq)
        · exact hb.2.2.2.2.2.2.2.2.1 (Option.some.inj heq)
        · exact hb.2.2.2.2.2.2.2.2.2.1 (Option.some.inj heq)
        · exact hb.2.2.2.2.2.2.2.2.2.2.1 (Option.some.inj heq)
        · exact hb.2.2.2.2.2.2.2.2.2.2.2.1 (Option.some.inj heq)
        · exact hb.2.2.2.2.2.2.2.2.2.2.2.2.1 _ (Option.some.inj heq)
        · exact hb.2.2.2.2.2.2.2.2.2.2.2.2.2.1 (Option.some.inj heq)
        · exact hb.2.2.2.2.2.2.2.2.2.2.2.2.2.2.1 (Option.some.inj heq)
        · exact hb.2.2.2.2.2.2.2.2.2.2.2.2.2.2.2.1 (Option.some.inj heq)
        · exact hb.2.2.2.2.2.2.2.2.2.2.2.2.1 _ (Option.some.inj heq)
        · split at heq
          · exact hb.2.2.2.2.2.2.2.2.2.2.2.2.2.2.2.2 _ (Option.some.inj heq)
          · exact absurd heq (by simp)
      simp only at hoff
      exact ⟨by omega, by omega⟩

/-- frame.parser.ts parse: repeatedly calls parseFrame, pushing each frame,
until parseFrame returns `undefined`; `none` models an exception escaping
from a body parser. -/
def parse (msg : List Nat) (offset : Nat) : Option (List Frame) :=
  match h : parseFrame msg offset with
  | .frame f o2 => (parse msg o2).map (fun frames => f :: frames)
  | .stop => some []
  | .err => none
termination_by msg.length - offset
decreasing_by
  have := parseFrame_advance msg offset f o2 h
  omega

end FrameParser

namespace CongestionControl

/-- congestion.control.ts DEFAULT_MSS. -/
def DEFAULT_MSS : Nat := 1460

/-- congestion.control.ts INITIAL_WINDOW = DEFAULT_MSS * 10. -/
def INITIAL_WINDOW : Nat := DEFAULT_MSS * 10

/-- congestion.control.ts MINIMUM_WINDOW = DEFAULT_MSS * 2. -/
def MINIMUM_WINDOW : Nat := DEFAULT_MSS * 2

/-- A queued packet as the congestion controller observes it: its
`isAckOnly()` flag and its `toBuffer().byteLength` size. -/
structure QPacket where
  ackOnly : Bool
  size : Nat
deriving DecidableEq

/-- A packet reported lost: `isAckOnly()`, `toBuffer().byteLength`, and the
header's packet number. -/
structure LostPacket where
  ackOnly : Bool
  size : Nat
  packetNumber : Nat
deriving DecidableEq

/-- The state of congestion.control.ts CongestionControl.  Bignum fields are
modelled as `Nat` (Bignum, types/bignum.ts, is not under src/);
`sshtresh = none` models `Bignum.infinity()` (the source spells the field
`sshtresh`). -/
structure CCState where
  bytesInFlight : Nat
  congestionWindow : Nat
  endOfRecovery : Nat
  sshtresh : Option Nat
  packetsQueue : List QPacket
deriving DecidableEq

/-- The constructor's initial state. -/
def initialState : CCState :=
  { bytesInFlight := 0
    congestionWindow := INITIAL_WINDOW
    endOfRecovery := 0
    sshtresh := none
    packetsQueue := [] }

/-- congestion.control.ts inRecovery: `packetNumber ≤ endOfRecovery`. -/
def inRecovery (s : CCState) (packetNumber : Nat) : Bool :=
  packetNumber ≤ s.endOfRecovery

/-- congestion.control.ts onPacketSent: adds the packet's size to
bytesInFlight unless the packet is ACK-only. -/
def onPacketSent (bytesInFlight : Nat) (p : QPacket) : Nat :=
  if ¬ p.ackOnly then bytesInFlight + p.size else bytesInFlight

/-- The `while (bytesInFlight < congestionWindow && queue.length > 0)` loop of
sendPackets: pops and sends packets (PN assignment and the socket write are
external effects; the popped packets are returned as the sent list), calling
onPacketSent on each. -/
def sendLoop (bytesInFlight congestionWindow : Nat) (queue : List QPacket) :
    Nat × List QPacket × List QPacket :=
  match queue with
  | [] => (bytesInFlight, [], [])
  | p :: rest =>
    if bytesInFlight < congestionWindow then
      let r := sendLoop (onPacketSent bytesInFlight p) congestionWindow rest
      (r.1, r.2.1, p :: r.2.2)
    else (bytesInFlight, p :: rest, [])

/-- congestion.control.ts sendPackets: runs the send loop over the packet
queue, returning the updated state and the packets actually sent. -/
def sendPackets (s : CCState) : CCState × List QPacket :=
  let r := sendLoop s.bytesInFlight s.congestionWindow s.packetsQueue
  ({ s with bytesInFlight := r.1, packetsQueue := r.2.1 }, r.2.2)

/-- congestion.control.ts queuePackets: appends, then sends. -/
def queuePackets (s : CCState) (packets : List QPacket) : CCState × List QPacket :=
  sendPackets { s with packetsQueue := s.packetsQueue ++ packets }

/-- The body of the forEach in onPacketsLost: ACK-only lost packets are
skipped; otherwise the size is removed from bytesInFlight and the running
largest lost packet number is updated. -/
def lostFold (acc : Nat × Nat) (p : LostPacket) : Nat × Nat :=
  if p.ackOnly then acc
  else (acc.1 - p.size, if acc.2 < p.packetNumber then p.packetNumber else acc.2)

/-- The largest packet number among the non-ACK-only lost packets
(`largestLost` of onPacketsLost, starting from `new Bignum(0)`). -/
def largestLost (lostPackets : List LostPacket) : Nat :=
  (lostPackets.foldl lostFold (0, 0)).2

/-- congestion.control.ts onPacketsLost: removes lost bytes from flight,
and when the largest lost packet number lies beyond the current recovery
epoch, starts a new one: `endOfRecovery ← largestLost`,
`congestionWindow ← max(congestionWindow × 0.5, MINIMUM_WINDOW)`
(the Bignum multiplication by the 0.5 LOSS_REDUCTION_FACTOR is modelled as
halving), `sshtresh ← congestionWindow`; finally calls sendPackets. -/
def onPacketsLost (s : CCState) (lostPackets : List LostPacket) :
    CCState × List QPacket :=
  let acc := lostPackets.foldl lostFold (s.bytesInFlight, 0)
  let s1 := { s with bytesInFlight := acc.1 }
  let s2 :=
    if ¬ inRecovery s1 acc.2 then
      let cw := max (s1.congestionWindow / 2) MINIMUM_WINDOW
      { s1 with endOfRecovery := acc.2, congestionWindow := cw, sshtresh := some cw }
    else s1
  sendPackets s2

/-- congestion.control.ts onRetransmissionTimeoutVerified. -/
def onRetransmissionTimeoutVerified (s : CCState) : CCState :=
  { s with congestionWindow := MINIMUM_WINDOW }

/-- The bytes a list of sent packets adds to the in-flight ledger: the sizes
of its non-ACK-only members. -/
def inFlightBytes (packets : List QPacket) : Nat :=
  ((packets.filter (fun p => ¬ p.ackOnly)).map (fun p => p.size)).sum

end CongestionControl

/-- A transport-parameter value as stored by the dynamically typed source:
a number (`readUIntBE`), a byte buffer (length > 4), or the boolean `true`
recorded for zero-length parameters. -/
inductive TPValue where
  | num (v : Nat)
  | bytes (bs : List Nat)
  | flag
deriving DecidableEq

/-- The typed fields of transport.parameters.ts TransportParameters;
fields the constructor leaves undefined are `Option`. -/
structure TransportParameters where
  isServer : Bool
  maxStreamDataBidiLocal : TPValue
  maxStreamDataBidiRemote : TPValue
  maxStreamDataUni : TPValue
  maxData : TPValue
  maxStreamIdBidi : Option TPValue
  maxStreamIdUni : Option TPValue
  idleTimeout : TPValue
  maxPacketSize : Option TPValue
  statelessResetToken : Option TPValue
  ackDelayExponent : Option TPValue
  disableMigration : Option TPValue
deriving DecidableEq

namespace TransportParameters

/-- `new TransportParameters(isServer, 0, 0, 0, version)` as called at the
start of fromExtensionBuffer. -/
def initialParameters (isServer : Bool) : TransportParameters :=
  { isServer := isServer
    maxStreamDataBidiLocal := .num 0
    maxStreamDataBidiRemote := .num 0
    maxStreamDataUni := .num 0
    maxData := .num 0
    maxStreamIdBidi := none
    maxStreamIdUni := none
    idleTimeout := .num 0
    maxPacketSize := none
    statelessResetToken := none
    ackDelayExponent := none
    disableMigration := none }

/-- transport.parameters.ts setTransportParameter: the switch over the
TransportParameterType tags (0x00-0x0d); PREFERRED_ADDRESS (0x04),
MAX_ACK_DELAY (0x0c) and ORIGINAL_CONNECTION_ID (0x0d) have no case and
leave the parameters unchanged, as does any tag outside the enum. -/
def setTransportParameter (tp : TransportParameters) (type : Nat) (value : TPValue) :
    TransportParameters :=
  match type with
  | 0x00 => { tp with maxStreamDataBidiLocal := value }
  | 0x0a => { tp with maxStreamDataBidiRemote := value }
  | 0x0b => { tp with maxStreamDataUni := value }
  | 0x01 => { tp with maxData := value }
  | 0x06 => { tp with statelessResetToken := some value }
  | 0x03 => { tp with idleTimeout := value }
  | 0x02 => { tp with maxStreamIdBidi := some value }
  | 0x08 => { tp with maxStreamIdUni := some value }
  | 0x05 => { tp with maxPacketSize := some value }
  | 0x07 => { tp with ackDelayExponent := some value }
  | 0x09 => { tp with disableMigration := some value }
  | _ => tp

/-- The two failure modes of fromExtensionBuffer: a Node RangeError from a
buffer read, or the thrown QuicError TRANSPORT_PARAMETER_ERROR on a
duplicated tag. -/
inductive TPParseError where
  | rangeError
  | transportParameterError
deriving DecidableEq

/-- The `while (offset < buffer.byteLength)` loop of fromExtensionBuffer:
reads type(2) and length(2), interprets the value (buffer when length > 4,
number when 0 < length ≤ 4, `true` when length = 0), throws
TRANSPORT_PARAMETER_ERROR when the type is already recorded, and otherwise
records `(type, value)` and continues past the value. -/
def parseLoop (buffer : List Nat) (offset : Nat) (values : List (Nat × TPValue)) :
    Except TPParseError (List (Nat × TPValue)) :=
  if _h : buffer.length ≤ offset then .ok values
  else
    match readUInt16BE buffer offset with
    | none => .error .rangeError
    | some type =>
      match readUInt16BE buffer (offset + 2) with
      | none => .error .rangeError
      | some len =>
        let valueRead : Option TPValue :=
          if 4 < len then some (.bytes (bufCopy buffer (offset + 4) len))
          else if 0 < len then (readUIntBE buffer (offset + 4) len).map .num
          else some .flag
        match valueRead with
        | none => .error .rangeError
        | some value =>
          if values.any (fun p => p.1 = type) then .error .transportParameterError
          else parseLoop buffer (offset + 4 + len) (values ++ [(type, value)])
termination_by buffer.length - offset

/-- The `for (key in values)` application phase of fromExtensionBuffer:
JavaScript iterates the integer-like keys of the `values` array in ascending
numeric order; keys inside the TransportParameterType enum (0x00-0x0d) are
applied with setTransportParameter, unknown keys are ignored. -/
def applyValues (tp : TransportParameters) (values : List (Nat × TPValue)) :
    TransportParameters :=
  (List.range 14).foldl
    (fun acc k =>
      match values.find? (fun p => p.1 = k) with
      | some p => setTransportParameter acc k p.2
      | none => acc)
    tp

/-- transport.parameters.ts fromExtensionBuffer: the record-reading loop
followed by the application phase over a fresh TransportParameters. -/
def fromExtensionBuffer (isServer : Bool) (buffer : List Nat) :
    Except TPParseError TransportParameters :=
  match parseLoop buffer 0 [] with
  | .error e => .error e
  | .ok values => .ok (applyValues (initialParameters isServer) values)

/-- A wire record of the extension buffer: `type(2) | length(2) | value`. -/
structure TPRecord where
  type : Nat
  value : List Nat
deriving DecidableEq

/-- A record whose type and length fit their 16-bit wire fields. -/
def WFRecord (r : TPRecord) : Prop :=
  r.type < 65536 ∧ r.value.length < 65536

/-- Big-endian 16-bit serialization. -/
def u16 (n : Nat) : List Nat := [n / 256, n % 256]

/-- Serialization of one `type(2) | length(2) | value(length)` record. -/
def encodeRecord (r : TPRecord) : List Nat :=
  u16 r.type ++ u16 r.value.length ++ r.value

/-- Serialization of a record sequence (a well-formed extension buffer). -/
def encodeRecords (rs : List TPRecord) : List Nat :=
  (rs.map encodeRecord).flatten

/-- The value the reading loop stores for a record. -/
def interpRecord (r : TPRecord) : TPValue :=
  if 4 < r.value.length then .bytes r.value
  else if 0 < r.value.length then
    .num (r.value.foldl (fun acc b => acc * 256 + b) 0)
  else .flag

/-- The reading loop of fromExtensionBuffer viewed over the record list it
consumes (related to parseLoop on an encoded buffer below). -/
def loopModel (values : List (Nat × TPValue)) :
    List TPRecord → Except TPParseError (List (Nat × TPValue))
  | [] => .ok values
  | r :: rest =>
    if values.any (fun p => p.1 = r.type) then .error .transportParameterError
    else loopModel (values ++ [(r.type, interpRecord r)]) rest

end TransportParameters

namespace Server

/-- The connection state the version-negotiation branch of Server.onMessage
touches: the Initial packet-number space's highest received number
(`none` models the absent/undefined value) and whether the connection has
been closed. -/
structure ServerConnection where
  initialHighestReceivedNumber : Option Nat
  closed : Bool
deriving DecidableEq

/-- The externally visible calls the branch makes, in order. -/
inductive ServerAction where
  | resetConnectionState
  | sendVersionNegotiationPacket
deriving DecidableEq

/-- server.ts onMessage, `VERSION_NEGOTIATION_ERROR` branch (the catch arm
for an unsupported version in an Initial packet): calls
`connection.resetConnectionState()` (connection.ts is not under src/; per the
spec this error is not connection-fatal, so the connection is not closed),
sets the Initial space's highest received number to
`new PacketNumber(new Bignum(0))`, then builds and sends a Version
Negotiation packet and returns. -/
def onVersionNegotiationError (c : ServerConnection) :
    ServerConnection × List ServerAction :=
  ({ c with initialHighestReceivedNumber := some 0 },
   [.resetConnectionState, .sendVersionNegotiationPacket])

end Server

/-!  Theorems.  -/

namespace CongestionControl

theorem sendLoop_gate (b cwnd : Nat) (queue : List QPacket) (h : cwnd ≤ b) :
    sendLoop b cwnd queue = (b, queue, []) := by
  cases queue with
  | nil => rfl
  | cons p rest =>
    unfold sendLoop
    rw [if_neg (by omega)]

theorem sendLoop_accounting (queue : List QPacket) : ∀ b cwnd,
    (sendLoop b cwnd queue).1 = b + inFlightBytes (sendLoop b cwnd queue).2.2 := by
  induction queue with
  | nil => intro b cwnd; simp [sendLoop, inFlightBytes]
  | cons p rest ih =>
    intro b cwnd
    unfold sendLoop
    split
    · have hr := ih (onPacketSent b p) cwnd
      by_cases hao : p.ackOnly
      · simp only [inFlightBytes, onPacketSent, hao] at hr ⊢
        simpa [hao] using hr
      · simp only [inFlightBytes, onPacketSent, hao] at hr ⊢
        simp only [List.filter_cons]
        simp only [hao, decide_not] at hr ⊢
        simp at hr ⊢
        omega
    · simp [inFlightBytes]

theorem sendPackets_preserves (s : CCState) :
    (sendPackets s).1.congestionWindow = s.congestionWindow
    ∧ (sendPackets s).1.sshtresh = s.sshtresh
    ∧ (sendPackets s).1.endOfRecovery = s.endOfRecovery := by
  refine ⟨rfl, rfl, rfl⟩

theorem lostFold_snd (l : List LostPacket) : ∀ a a' b,
    (l.foldl lostFold (a, b)).2 = (l.foldl lostFold (a', b)).2 := by
  induction l with
  | nil => intro a a' b; rfl
  | cons p rest ih =>
    intro a a' b
    simp only [List.foldl_cons]
    unfold lostFold
    by_cases hao : p.ackOnly
    · simp only [hao, if_true]
      exact ih a a' b
    · simp only [hao, if_false]
      exact ih (a - p.size) (a' - p.size) _

end CongestionControl

/-- C2 (as stated, refuted): with `bytesInFlight = congestionWindow = 14600`
and a single ACK-only packet queued, sendPackets sends nothing at all; the
ACK-only packet does not bypass the `bytesInFlight < congestionWindow`
gate. -/
theorem claim2_counterexample :
    (CongestionControl.sendPackets
       { bytesInFlight := 14600, congestionWindow := 14600, endOfRecovery := 0,
         sshtresh := none,
         packetsQueue := [{ ackOnly := true, size := 50 }] }).2 = []
    ∧ ({ ackOnly := true, size := 50 } : CongestionControl.QPacket).ackOnly = true := by
  constructor
  · rfl
  · rfl

/-- C2 (amended): whenever `bytes_in_flight ≥ cwnd`, sendPackets sends no
queued packet at all — ACK-only ones included — and leaves the state
unchanged; the packets that are sent raise bytesInFlight by exactly the sizes
of the non-ACK-only ones, so a sent ACK-only packet never increases
bytes_in_flight; the congestion window is untouched. -/
theorem claim2_theorem (s : CongestionControl.CCState) :
    (s.congestionWindow ≤ s.bytesInFlight → CongestionControl.sendPackets s = (s, []))
    ∧ (CongestionControl.sendPackets s).1.bytesInFlight
        = s.bytesInFlight + CongestionControl.inFlightBytes (CongestionControl.sendPackets s).2
    ∧ (CongestionControl.sendPackets s).1.congestionWindow = s.congestionWindow := by
  refine ⟨?_, ?_, rfl⟩
  · intro h
    have hg := CongestionControl.sendLoop_gate s.bytesInFlight s.congestionWindow s.packetsQueue h
    simp [CongestionControl.sendPackets, hg]
  · have hr := CongestionControl.sendLoop_accounting s.packetsQueue s.bytesInFlight s.congestionWindow
    simpa [CongestionControl.sendPackets] using hr

/-- C2 witness: the amended theorem at the counterexample state. -/
theorem claim2_witness :
    CongestionControl.sendPackets
        { bytesInFlight := 14600, congestionWindow := 14600, endOfRecovery := 0,
          sshtresh := none,
          packetsQueue := [{ ackOnly := true, size := 50 }] }
      = ({ bytesInFlight := 14600, congestionWindow := 14600, endOfRecovery := 0,
           sshtresh := none,
           packetsQueue := [{ ackOnly := true, size := 50 }] }, []) :=
  (claim2_theorem _).1 (by decide)

/-- C5 (as stated, refuted): the version-negotiation branch sets the Initial
space's highest received number to the present value 0, not to absent. -/
theorem claim5_counterexample :
    (Server.onVersionNegotiationError
        { initialHighestReceivedNumber := some 5, closed := false
          }).1.initialHighestReceivedNumber = some 0
    ∧ (some 0 : Option Nat) ≠ none := by
  exact ⟨rfl, by simp⟩

/-- C5 (amended): on a VERSION_NEGOTIATION_ERROR for an Initial packet the
server resets the connection state, sets the Initial packet-number space's
highest received number to 0 (present, so the next Initial is expected at
packet number 1), sends a Version Negotiation packet, and does not close the
connection. -/
theorem claim5_theorem (c : Server.ServerConnection) :
    Server.onVersionNegotiationError c
      = ({ c with initialHighestReceivedNumber := some 0 },
         [.resetConnectionState, .sendVersionNegotiationPacket])
    ∧ (Server.onVersionNegotiationError c).1.closed = c.closed := ⟨rfl, rfl⟩

/-- C7 (as stated, refuted): a loss event entirely within the current
recovery epoch (largest lost packet number 3 ≤ endOfRecovery 5) leaves the
congestion window at 14600, above `max(cwnd × 0.5, min_window) = 7300`. -/
theorem claim7_counterexample :
    (CongestionControl.onPacketsLost
        { bytesInFlight := 0, congestionWindow := 14600, endOfRecovery := 5,
          sshtresh := none, packetsQueue := [] }
        [{ ackOnly := false, size := 100, packetNumber := 3 }]).1.congestionWindow = 14600
    ∧ ¬ (14600 ≤ max (14600 / 2) CongestionControl.MINIMUM_WINDOW) := by
  constructor
  · rfl
  · decide

/-- C7 (amended): on a loss event whose largest (non-ACK-only) lost packet
number exceeds end_of_recovery, the congestion controller sets
`cwnd ← max(cwnd × 0.5, min_window)`, `ssthresh ← cwnd` and
`end_of_recovery ← largest lost pn`; on a loss event within the recovery
epoch the window is unchanged; hence, whenever `min_window ≤ cwnd` (an
invariant of every reachable state), a loss event never increases cwnd. -/
theorem claim7_theorem (s : CongestionControl.CCState)
    (lostPackets : List CongestionControl.LostPacket) :
    (s.endOfRecovery < CongestionControl.largestLost lostPackets →
       (CongestionControl.onPacketsLost s lostPackets).1.congestionWindow
           = max (s.congestionWindow / 2) CongestionControl.MINIMUM_WINDOW
       ∧ (CongestionControl.onPacketsLost s lostPackets).1.sshtresh
           = some (max (s.congestionWindow / 2) CongestionControl.MINIMUM_WINDOW)
       ∧ (CongestionControl.onPacketsLost s lostPackets).1.endOfRecovery
           = CongestionControl.largestLost lostPackets)
    ∧ (CongestionControl.MINIMUM_WINDOW ≤ s.congestionWindow →
        (CongestionControl.onPacketsLost s lostPackets).1.congestionWindow
          ≤ s.congestionWindow) := by
  have hsnd : (lostPackets.foldl CongestionControl.lostFold (s.bytesInFlight, 0)).2
      = CongestionControl.largestLost lostPackets :=
    CongestionControl.lostFold_snd lostPackets s.bytesInFlight 0 0
  constructor
  · intro hgt
    simp only [CongestionControl.onPacketsLost, CongestionControl.inRecovery, hsnd]
    rw [if_pos]
    · exact ⟨(CongestionControl.sendPackets_preserves _).1,
        (CongestionControl.sendPackets_preserves _).2.1,
        (CongestionControl.sendPackets_preserves _).2.2⟩
    · simp only [decide_eq_true_eq]
      omega
  · intro hmin
    simp only [CongestionControl.onPacketsLost, CongestionControl.inRecovery, hsnd]
    split
    · rw [(CongestionControl.sendPackets_preserves _).1]
      have hd : s.congestionWindow / 2 ≤ s.congestionWindow := Nat.div_le_self _ _
      simp only
      omega
    · rw [(CongestionControl.sendPackets_preserves _).1]

/-- C7 witness: the amended theorem at a fresh-state loss of packet 5. -/
theorem claim7_witness :
    ((CongestionControl.onPacketsLost
        { bytesInFlight := 0, congestionWindow := 14600, endOfRecovery := 0,
          sshtresh := none, packetsQueue := [] }
        [{ ackOnly := false, size := 100, packetNumber := 5 }]).1.congestionWindow
      = max (14600 / 2) CongestionControl.MINIMUM_WINDOW
     ∧ (CongestionControl.onPacketsLost
        { bytesInFlight := 0, congestionWindow := 14600, endOfRecovery := 0,
          sshtresh := none, packetsQueue := [] }
        [{ ackOnly := false, size := 100, packetNumber := 5 }]).1.sshtresh
      = some (max (14600 / 2) CongestionControl.MINIMUM_WINDOW)
     ∧ (CongestionControl.onPacketsLost
        { bytesInFlight := 0, congestionWindow := 14600, endOfRecovery := 0,
          sshtresh := none, packetsQueue := [] }
        [{ ackOnly := false, size := 100, packetNumber := 5 }]).1.endOfRecovery
      = CongestionControl.largestLost
          [{ ackOnly := false, size := 100, packetNumber := 5 }])
    ∧ (CongestionControl.onPacketsLost
        { bytesInFlight := 0, congestionWindow := 14600, endOfRecovery := 0,
          sshtresh := none, packetsQueue := [] }
        [{ ackOnly := false, size := 100, packetNumber := 5 }]).1.congestionWindow
      ≤ 14600 :=
  ⟨(claim7_theorem _ _).1 (by decide), (claim7_theorem _ _).2 (by decide)⟩

/-- C1 (the reason-phrase off-by-one, evaluated): for the CONNECTION_CLOSE
body `[0x00, 0x00, 0x01, 0x41]` (error code 0, VLIE reason length 1 ending
at offset 3), the parser returns the empty reason phrase — the bytes
`[3, 1)` clamp to nothing — instead of the byte `0x41` at `[3, 4)`; the
returned offset 4 is as specified. -/
theorem claim1_theorem :
    FrameParser.parseClose FrameType.CONNECTION_CLOSE [0x00, 0x00, 0x01, 0x41] 0
      = some (.connectionClose 0 [], 4)
    ∧ bufSubstring [0x00, 0x00, 0x01, 0x41] 3 (3 + 1) = [0x41] := by
  constructor
  · rfl
  · rfl

namespace FrameParser

theorem parse_frame_step (msg : List Nat) (off : Nat) (f : Frame) (o2 : Nat)
    (h : parseFrame msg off = .frame f o2) :
    parse msg off = (parse msg o2).map (fun fs => f :: fs) := by
  conv_lhs => unfold parse
  split
  · rename_i f2 o22 heq
    rw [h] at heq
    cases heq
    rfl
  · rename_i heq
    rw [h] at heq
    cases heq
  · rename_i heq
    rw [h] at heq
    cases heq

theorem parse_stop_step (msg : List Nat) (off : Nat) (h : parseFrame msg off = .stop) :
    parse msg off = some [] := by
  conv_lhs => unfold parse
  split
  · rename_i f2 o22 heq
    rw [h] at heq
    cases heq
  · rfl
  · rename_i heq
    rw [h] at heq
    cases heq

theorem parse_length_bound (buffer : List Nat) : ∀ offset frames,
    parse buffer offset = some frames → frames.length ≤ buffer.length - offset := by
  suffices H : ∀ n offset frames, buffer.length - offset = n →
      parse buffer offset = some frames → frames.length ≤ buffer.length - offset by
    intro offset frames h
    exact H _ offset frames rfl h
  intro n
  induction n using Nat.strong_induction_on with
  | _ n ih =>
    intro offset frames hn hp
    cases hres : parseFrame buffer offset with
    | frame f o2 =>
      have hadv := parseFrame_advance buffer offset f o2 hres
      rw [parse_frame_step buffer offset f o2 hres] at hp
      cases hrec : parse buffer o2 with
      | none =>
        rw [hrec] at hp
        simp at hp
      | some rest =>
        rw [hrec] at hp
        have hp2 : some (f :: rest) = some frames := hp
        have hlen := ih (buffer.length - o2) (by omega) o2 rest rfl hrec
        have hfl : frames.length = rest.length + 1 := by
          cases hp2
          rfl
        omega
    | stop =>
      rw [parse_stop_step buffer offset hres] at hp
      have hfl : frames = [] := by
        cases hp
        rfl
      subst hfl
      exact Nat.zero_le _
    | err =>
      rw [show parse buffer offset = none from ?_] at hp
      · cases hp
      · conv_lhs => unfold parse
        split
        · rename_i heq
          rw [hres] at heq
          cases heq
        · rename_i heq
          rw [hres] at heq
          cases heq
        · rfl

/-- The zero-byte run: when `m` zeros sit at `[s, s + m)` and the byte at
`s + m` (if any) is non-zero, padLoop stops exactly at `s + m`. -/
theorem padLoop_run (buffer : List Nat) (m : Nat) : ∀ s,
    (∀ i, i < m → buffer[s + i]? = some 0) → buffer[s + m]? ≠ some 0 →
    padLoop buffer s = s + m := by
  induction m with
  | zero =>
    intro s _ hstop
    unfold padLoop
    split
    · rename_i hlt
      rw [if_neg]
      · omega
      · intro hz
        apply hstop
        rw [Nat.add_zero, List.getElem?_eq_getElem hlt]
        have hg : buffer.getD s 0 = buffer[s] := by
          rw [List.getD_eq_getElem?_getD, List.getElem?_eq_getElem hlt]
          rfl
        rw [← hg, hz]
    · omega
  | succ m ih =>
    intro s hzeros hstop
    have h0 : buffer[s]? = some 0 := by
      have := hzeros 0 (Nat.succ_pos m)
      simpa using this
    have hlt : s < buffer.length := (List.getElem?_eq_some_iff.mp h0).1
    have hg : buffer.getD s 0 = 0 := by
      rw [List.getD_eq_getElem?_getD, h0]
      rfl
    unfold padLoop
    rw [dif_pos hlt, if_pos hg]
    have hrec := ih (s + 1)
      (fun i hi => by
        have := hzeros (i + 1) (by omega)
        simpa [Nat.add_assoc, Nat.add_comm 1 i] using this)
      (by
        have : s + 1 + m = s + (m + 1) := by omega
        rw [this]
        exact hstop)
    omega

/-- A clamped copy of everything up to the end of the buffer is a drop. -/
theorem bufCopy_drop (buffer : List Nat) (off : Nat) (hoff : off ≤ buffer.length) :
    bufCopy buffer off (buffer.length - off) = buffer.drop off := by
  unfold bufCopy
  have hl : (buffer.drop off).length = buffer.length - off := List.length_drop off buffer
  rw [List.take_of_length_le (by omega)]
  simp [hl]

end FrameParser

/-- C3 (as stated, refuted): on the one-byte payload `[0x30]`, whose type
byte 0x30 is not an identified frame type, the decoder does not fail with
FRAME_ENCODING_ERROR: parse returns normally with the empty frame list. -/
theorem claim3_counterexample :
    FrameParser.knownFrameType 0x30 = false
    ∧ FrameParser.parse [0x30] 0 = some [] := by
  constructor
  · rfl
  · exact FrameParser.parse_stop_step [0x30] 0 rfl

/-- C3 (amended): a frame-type byte outside the identified set does not
raise FRAME_ENCODING_ERROR; parseFrame returns `undefined` (stop), so parse
silently returns the frames decoded before that byte — here, starting at the
unknown byte, the empty list. -/
theorem claim3_theorem (buffer : List Nat) (offset b : Nat)
    (hb : buffer[offset]? = some b) (hunk : FrameParser.knownFrameType b = false) :
    FrameParser.parseFrame buffer offset = .stop
    ∧ FrameParser.parse buffer offset = some [] := by
  have hlt : offset < buffer.length := (List.getElem?_eq_some_iff.mp hb).1
  have hg : buffer.getD offset 0 = b := by
    rw [List.getD_eq_getElem?_getD, hb]
    rfl
  have hrange : 0x18 < b ∧ b ≠ 0x1a := by
    unfold FrameParser.knownFrameType at hunk
    simp only [Bool.or_eq_false_iff, decide_eq_false_iff_not, beq_eq_false_iff_ne,
      ne_eq, Nat.not_le] at hunk
    exact ⟨hunk.1, hunk.2⟩
  have hdis : FrameParser.dispatchFrame b buffer (offset + 1) = none := by
    unfold FrameParser.dispatchFrame
    split
    all_goals try (exfalso; omega)
    rw [if_neg]
    unfold FrameType.STREAM FrameType.STREAM_MAX_NR
    omega
  have hpf : FrameParser.parseFrame buffer offset = .stop := by
    unfold FrameParser.parseFrame
    rw [if_neg (by omega), hg, hdis]
  exact ⟨hpf, FrameParser.parse_stop_step buffer offset hpf⟩

/-- C3 witness: the amended theorem at the unknown byte 0x30 sitting at
offset 1 after a PING. -/
theorem claim3_witness :
    FrameParser.parseFrame [0x07, 0x30] 1 = .stop
    ∧ FrameParser.parse [0x07, 0x30] 1 = some [] :=
  claim3_theorem [0x07, 0x30] 1 0x30 rfl rfl

/-- C4 (as stated, refuted): the payload `[0x00]` is a maximal run of k = 1
zero byte, but the PADDING frame the decoder emits records padding size 0,
not 1 — the 0x00 type byte consumed by parseFrame is not counted. -/
theorem claim4_counterexample :
    FrameParser.parseFrame [0x00] 0 = .frame (.padding 0) 1
    ∧ (0 : Nat) ≠ 1 := by
  constructor
  · simp [FrameParser.parseFrame, FrameParser.dispatchFrame, FrameParser.parsePadding,
      FrameParser.padLoop]
  · omega

/-- C4 (amended): a maximal run of k ≥ 1 zero bytes starting at the current
frame-type position yields exactly one PADDING frame whose recorded padding
size is k - 1 (the consumed type byte is not counted), and parsing resumes
at the first byte after the run. -/
theorem claim4_theorem (buffer : List Nat) (offset k : Nat) (hk : 1 ≤ k)
    (hzeros : ∀ i, i < k → buffer[offset + i]? = some 0)
    (hstop : buffer[offset + k]? ≠ some 0) :
    FrameParser.parseFrame buffer offset = .frame (.padding (k - 1)) (offset + k)
    ∧ FrameParser.parse buffer offset
        = (FrameParser.parse buffer (offset + k)).map (fun fs => Frame.padding (k - 1) :: fs) := by
  have h0 : buffer[offset]? = some 0 := by
    have := hzeros 0 hk
    simpa using this
  have hlt : offset < buffer.length := (List.getElem?_eq_some_iff.mp h0).1
  have hg : buffer.getD offset 0 = 0 := by
    rw [List.getD_eq_getElem?_getD, h0]
    rfl
  have hpad : FrameParser.padLoop buffer (offset + 1) = offset + k := by
    have hrun := FrameParser.padLoop_run buffer (k - 1) (offset + 1)
      (fun i hi => by
        have := hzeros (i + 1) (by omega)
        have harith : offset + (i + 1) = offset + 1 + i := by omega
        rwa [harith] at this)
      (by
        have harith : offset + 1 + (k - 1) = offset + k := by omega
        rw [harith]
        exact hstop)
    omega
  have hpf : FrameParser.parseFrame buffer offset = .frame (.padding (k - 1)) (offset + k) := by
    unfold FrameParser.parseFrame
    rw [if_neg (by omega), hg]
    show (match FrameParser.dispatchFrame 0 buffer (offset + 1) with
      | none => FrameResult.stop
      | some none => FrameResult.err
      | some (some (f, o2)) => FrameResult.frame f o2) = _
    unfold FrameParser.dispatchFrame
    simp only [FrameParser.parsePadding, hpad]
    have harith : offset + k - (offset + 1) = k - 1 := by omega
    rw [harith]
  exact ⟨hpf, FrameParser.parse_frame_step buffer offset _ _ hpf⟩

/-- C4 witness: the amended theorem on the run `0x00 0x00` followed by the
non-zero byte 0x05. -/
theorem claim4_witness :
    FrameParser.parseFrame [0x00, 0x00, 0x05] 0 = .frame (.padding 1) 2
    ∧ FrameParser.parse [0x00, 0x00, 0x05] 0
        = (FrameParser.parse [0x00, 0x00, 0x05] 2).map (fun fs => Frame.padding 1 :: fs) :=
  claim4_theorem [0x00, 0x00, 0x05] 0 2 (by omega)
    (by
      intro i hi
      interval_cases i <;> rfl)
    (by decide)

/-- C8: for a STREAM frame (type byte 0x10-0x17) the decoder takes the FIN
flag from bit 0 of the type byte; with bit 2 (OFF) absent the frame's data
offset is 0; with bit 1 (LEN) absent the data runs to the end of the packet
payload: the returned parse offset is the buffer length and the data is
exactly the buffer's trailing slice of the recorded length. -/
theorem claim8_theorem (type : Nat) (buffer : List Nat) (offset : Nat) (f : Frame) (o2 : Nat)
    (hlo : FrameType.STREAM ≤ type) (hhi : type ≤ FrameType.STREAM_MAX_NR)
    (h : FrameParser.parseStream type buffer offset = some (f, o2)) :
    ∃ streamID data dataOffset dataLength,
      f = Frame.stream streamID data (type &&& 0x01 != 0) dataOffset dataLength
      ∧ (type &&& 0x04 = 0 → dataOffset = 0)
      ∧ (type &&& 0x02 = 0 →
           o2 = buffer.length ∧ data = buffer.drop (buffer.length - dataLength)) := by
  unfold FrameParser.parseStream at h
  split at h
  · exact absurd h (by simp)
  · rename_i sid o1 h1
    split at h
    · exact absurd h (by simp)
    · rename_i doff oA h2
      split at h
      · exact absurd h (by simp)
      · rename_i dlen oB h3
        cases h
        refine ⟨sid, _, doff, dlen, rfl, ?_, ?_⟩
        · intro h4
          rw [if_neg (by simp [h4])] at h2
          cases h2
          rfl
        · intro hlen0
          rw [if_neg (by simp [hlen0])] at h3
          cases h3
          have hA : oA ≤ buffer.length := by
            split at h2
            · exact (FrameParser.decode_bounds buffer o1 doff oA h2).2
            · cases h2
              exact (FrameParser.decode_bounds buffer offset sid o1 h1).2
          constructor
          · omega
          · rw [FrameParser.bufCopy_drop buffer oA hA]
            congr 1
            omega

/-- C8 witness: type 0x11 (FIN set, LEN and OFF absent) on the buffer
`[0x04, 0xAB]`: stream 4, offset 0, data the single trailing byte. -/
theorem claim8_witness :
    ∃ streamID data dataOffset dataLength,
      (Frame.stream 4 [0xAB] ((0x11 : Nat) &&& 0x01 != 0) 0 1)
        = Frame.stream streamID data ((0x11 : Nat) &&& 0x01 != 0) dataOffset dataLength
      ∧ ((0x11 : Nat) &&& 0x04 = 0 → dataOffset = 0)
      ∧ ((0x11 : Nat) &&& 0x02 = 0 →
           (2 : Nat) = ([0x04, 0xAB] : List Nat).length
           ∧ data = ([0x04, 0xAB] : List Nat).drop (([0x04, 0xAB] : List Nat).length - dataLength)) :=
  claim8_theorem 0x11 [0x04, 0xAB] 0 (Frame.stream 4 [0xAB] ((0x11 : Nat) &&& 0x01 != 0) 0 1) 2
    (by decide) (by decide) rfl

/-- C9: for an ACK_ECN frame, when the ack fields end exactly at the end of
the buffer the frame is returned with no ECN counts and no error; otherwise
exactly three further VLIE counts (ECT0, ECT1, CE) are decoded, stored on
the frame, and the returned offset advances past them. -/
theorem claim9_theorem (buffer : List Nat) (offset la o1 ad o2 bc o3 fb o4 : Nat)
    (blocks : List (Nat × Nat)) (o5 : Nat)
    (h1 : VLIE.decode buffer offset = some (la, o1))
    (h2 : VLIE.decode buffer o1 = some (ad, o2))
    (h3 : VLIE.decode buffer o2 = some (bc, o3))
    (h4 : VLIE.decode buffer o3 = some (fb, o4))
    (h5 : FrameParser.ackBlockLoop buffer bc o4 = some (blocks, o5)) :
    (o5 = buffer.length →
       FrameParser.parseAck true buffer offset
         = some (.ack true la ad bc fb blocks none, o5))
    ∧ (o5 ≠ buffer.length →
        ∀ e0 p1 e1 p2 ce p3,
          VLIE.decode buffer o5 = some (e0, p1) →
          VLIE.decode buffer p1 = some (e1, p2) →
          VLIE.decode buffer p2 = some (ce, p3) →
          FrameParser.parseAck true buffer offset
            = some (.ack true la ad bc fb blocks (some (e0, e1, ce)), p3)) := by
  constructor
  · intro hend
    unfold FrameParser.parseAck
    simp only [h1, h2, h3, h4, h5, if_pos rfl, if_pos hend]
    simp
  · intro hend e0 p1 e1 p2 ce p3 h6 h7 h8
    unfold FrameParser.parseAck
    simp only [h1, h2, h3, h4, h5, h6, h7, h8, if_pos rfl, if_neg hend]
    simp

/-- C9 witness: the amended behaviors on `[0x05, 0x00, 0x00, 0x00]`
(fields end at the buffer end, no ECN counts) and on
`[0x05, 0x00, 0x00, 0x00, 0x01, 0x02, 0x03]` (three ECN counts decoded,
offset advancing to 7). -/
theorem claim9_witness :
    FrameParser.parseAck true [0x05, 0x00, 0x00, 0x00] 0
      = some (.ack true 5 0 0 0 [] none, 4)
    ∧ FrameParser.parseAck true [0x05, 0x00, 0x00, 0x00, 0x01, 0x02, 0x03] 0
      = some (.ack true 5 0 0 0 [] (some (1, 2, 3)), 7) :=
  ⟨(claim9_theorem [0x05, 0x00, 0x00, 0x00] 0 5 1 0 2 0 3 0 4 [] 4
      rfl rfl rfl rfl rfl).1 rfl,
   (claim9_theorem [0x05, 0x00, 0x00, 0x00, 0x01, 0x02, 0x03] 0 5 1 0 2 0 3 0 4 [] 4
      rfl rfl rfl rfl rfl).2 (by decide) 1 5 2 6 3 7 rfl rfl rfl⟩

/-- C10: FrameParser.parse terminates on every finite buffer: whenever an
iteration emits a frame, the returned offset strictly exceeds the offset of
that frame's type byte, and consequently the frame list parse returns has at
most `buffer.length - offset` elements. -/
theorem claim10_theorem (buffer : List Nat) (offset : Nat) :
    (∀ f o2, FrameParser.parseFrame buffer offset = .frame f o2 → offset < o2)
    ∧ (∀ frames, FrameParser.parse buffer offset = some frames →
         frames.length ≤ buffer.length - offset) := by
  constructor
  · intro f o2 h
    exact (FrameParser.parseFrame_advance buffer offset f o2 h).1
  · intro frames h
    exact FrameParser.parse_length_bound buffer offset frames h

/-- C10 witness: two PING frames; each parseFrame step advances the offset
and the two frames fit the two-byte buffer. -/
theorem claim10_witness :
    (0 : Nat) < 1 ∧ ([Frame.ping, Frame.ping].length ≤ [0x07, 0x07].length - 0) :=
  ⟨(claim10_theorem [0x07, 0x07] 0).1 .ping 1 rfl,
   (claim10_theorem [0x07, 0x07] 0).2 [.ping, .ping]
     (by
       rw [FrameParser.parse_frame_step [0x07, 0x07] 0 .ping 1 rfl,
         FrameParser.parse_frame_step [0x07, 0x07] 1 .ping 2 rfl,
         FrameParser.parse_stop_step [0x07, 0x07] 2 rfl]
       rfl)⟩

namespace TransportParameters

theorem getElem?_append_add (pre l : List Nat) (i : Nat) :
    (pre ++ l)[pre.length + i]? = l[i]? := by
  rw [List.getElem?_append_right (by omega)]
  congr 1
  omega

theorem drop_append_add (pre l : List Nat) (k : Nat) :
    (pre ++ l).drop (pre.length + k) = l.drop k := by
  rw [← List.drop_drop, List.drop_left]

theorem read_type (pre rest : List Nat) (r : TPRecord) :
    readUInt16BE (pre ++ (encodeRecord r ++ rest)) pre.length = some r.type := by
  unfold readUInt16BE
  have h0 := getElem?_append_add pre (encodeRecord r ++ rest) 0
  have h1 := getElem?_append_add pre (encodeRecord r ++ rest) 1
  rw [Nat.add_zero] at h0
  rw [h0, h1]
  simp only [encodeRecord, u16, List.cons_append, List.nil_append, List.getElem?_cons_zero,
    List.getElem?_cons_succ]
  congr 1
  omega

theorem read_length (pre rest : List Nat) (r : TPRecord) :
    readUInt16BE (pre ++ (encodeRecord r ++ rest)) (pre.length + 2) = some r.value.length := by
  unfold readUInt16BE
  have h2 := getElem?_append_add pre (encodeRecord r ++ rest) 2
  have h3 := getElem?_append_add pre (encodeRecord r ++ rest) 3
  rw [show pre.length + 2 + 1 = pre.length + 3 by omega]
  rw [h2, h3]
  simp only [encodeRecord, u16, List.cons_append, List.nil_append, List.getElem?_cons_zero,
    List.getElem?_cons_succ]
  congr 1
  omega

theorem drop_value (pre rest : List Nat) (r : TPRecord) :
    (pre ++ (encodeRecord r ++ rest)).drop (pre.length + 4) = r.value ++ rest := by
  rw [drop_append_add]
  simp only [encodeRecord, u16, List.cons_append, List.nil_append]
  rfl

theorem encodeRecord_length (r : TPRecord) :
    (encodeRecord r).length = 4 + r.value.length := by
  simp [encodeRecord, u16]
  omega

/-- One iteration of the reading loop over a record boundary. -/
theorem parseLoop_step (r : TPRecord) (rest pre : List Nat)
    (values : List (Nat × TPValue)) :
    parseLoop (pre ++ (encodeRecord r ++ rest)) pre.length values
      = (if values.any (fun p => p.1 = r.type) then .error .transportParameterError
         else parseLoop (pre ++ (encodeRecord r ++ rest))
                (pre.length + 4 + r.value.length)
                (values ++ [(r.type, interpRecord r)])) := by
  have hlen : (pre ++ (encodeRecord r ++ rest)).length
      = pre.length + (4 + r.value.length) + rest.length := by
    simp [encodeRecord_length]
    omega
  have hV : (if 4 < r.value.length then
        some (TPValue.bytes
          (bufCopy (pre ++ (encodeRecord r ++ rest)) (pre.length + 4) r.value.length))
      else if 0 < r.value.length then
        (readUIntBE (pre ++ (encodeRecord r ++ rest)) (pre.length + 4) r.value.length).map .num
      else some .flag) = some (interpRecord r) := by
    have hdrop := drop_value pre rest r
    unfold interpRecord
    by_cases h4 : 4 < r.value.length
    · rw [if_pos h4, if_pos h4]
      unfold bufCopy
      rw [hdrop, List.take_left]
      simp
    · rw [if_neg h4, if_neg h4]
      by_cases h0 : 0 < r.value.length
      · rw [if_pos h0, if_pos h0]
        unfold readUIntBE
        rw [if_pos (by constructor; omega; omega), hdrop, List.take_left]
        rfl
      · rw [if_neg h0, if_neg h0]
  conv_lhs => unfold parseLoop
  rw [dif_neg (by rw [hlen]; omega)]
  rw [read_type pre rest r]
  show (match readUInt16BE (pre ++ (encodeRecord r ++ rest)) (pre.length + 2) with
    | none => Except.error TPParseError.rangeError
    | some len => _) = _
  rw [read_length pre rest r]
  show (match (if 4 < r.value.length then _ else _ : Option TPValue) with
    | none => Except.error TPParseError.rangeError
    | some value => _) = _
  rw [hV]

/-- The reading loop over an encoded record sequence follows loopModel. -/
theorem parseLoop_records : ∀ (rs : List TPRecord) (pre : List Nat)
    (values : List (Nat × TPValue)),
    parseLoop (pre ++ encodeRecords rs) pre.length values = loopModel values rs := by
  intro rs
  induction rs with
  | nil =>
    intro pre values
    rw [show encodeRecords [] = [] from rfl, List.append_nil]
    conv_lhs => unfold parseLoop
    rw [dif_pos (Nat.le_refl _)]
    rfl
  | cons r rest ih =>
    intro pre values
    rw [show encodeRecords (r :: rest) = encodeRecord r ++ encodeRecords rest from rfl]
    rw [parseLoop_step r (encodeRecords rest) pre values]
    unfold loopModel
    split
    · rfl
    · have hassoc : pre ++ (encodeRecord r ++ encodeRecords rest)
          = (pre ++ encodeRecord r) ++ encodeRecords rest := by
        rw [List.append_assoc]
      have hlen2 : pre.length + 4 + r.value.length = (pre ++ encodeRecord r).length := by
        rw [List.length_append, encodeRecord_length]
        omega
      rw [hassoc, hlen2, ih]

theorem loopModel_ok : ∀ (rs : List TPRecord) (values : List (Nat × TPValue)),
    (values.map Prod.fst ++ rs.map TPRecord.type).Nodup →
    loopModel values rs = .ok (values ++ rs.map (fun r => (r.type, interpRecord r))) := by
  intro rs
  induction rs with
  | nil =>
    intro values _
    simp [loopModel]
  | cons r rest ih =>
    intro values h
    have hmem : r.type ∉ values.map Prod.fst := by
      intro hmem
      rcases List.nodup_append.mp h with ⟨_, _, hdisj⟩
      exact hdisj hmem (List.mem_cons_self _ _)
    unfold loopModel
    rw [if_neg ?hne]
    case hne =>
      intro hany
      rcases List.any_eq_true.mp hany with ⟨p, hp, he⟩
      apply hmem
      have : p.1 = r.type := by simpa using he
      rw [← this]
      exact List.mem_map_of_mem Prod.fst hp
    rw [ih (values ++ [(r.type, interpRecord r)]) ?hnd]
    · simp
    case hnd =>
      simp only [List.map_cons] at h
      rw [List.append_cons] at h
      simp only [List.map_append, List.map_cons, List.map_nil]
      exact h

theorem loopModel_error : ∀ (rs : List TPRecord) (values : List (Nat × TPValue)),
    (values.map Prod.fst).Nodup →
    ¬ (values.map Prod.fst ++ rs.map TPRecord.type).Nodup →
    loopModel values rs = .error .transportParameterError := by
  intro rs
  induction rs with
  | nil =>
    intro values hV hnd
    exfalso
    apply hnd
    simpa using hV
  | cons r rest ih =>
    intro values hV hnd
    unfold loopModel
    by_cases hany : values.any (fun p => p.1 = r.type) = true
    · rw [if_pos hany]
    · rw [if_neg hany]
      have hmem : r.type ∉ values.map Prod.fst := by
        intro hmem
        apply hany
        rcases List.mem_map.mp hmem with ⟨p, hp, he⟩
        exact List.any_eq_true.mpr ⟨p, hp, by simpa using he⟩
      apply ih
      · simp only [List.map_append, List.map_cons, List.map_nil]
        rw [List.nodup_append]
        refine ⟨hV, List.nodup_singleton _, ?_⟩
        intro a ha hb
        simp only [List.mem_singleton] at hb
        subst hb
        exact hmem ha
      · simp only [List.map_cons] at hnd
        rw [List.append_cons] at hnd
        simp only [List.map_append, List.map_cons, List.map_nil]
        exact hnd

theorem foldl_set_congr (v1 v2 : List (Nat × TPValue))
    (hfind : ∀ k, k < 14 →
      v1.find? (fun p => p.1 = k) = v2.find? (fun p => p.1 = k)) :
    ∀ (ks : List Nat), (∀ k ∈ ks, k < 14) → ∀ tp,
      ks.foldl (fun acc k =>
        match v1.find? (fun p => p.1 = k) with
        | some p => setTransportParameter acc k p.2
        | none => acc) tp
      = ks.foldl (fun acc k =>
        match v2.find? (fun p => p.1 = k) with
        | some p => setTransportParameter acc k p.2
        | none => acc) tp := by
  intro ks
  induction ks with
  | nil => intro _ tp; rfl
  | cons k rest ih =>
    intro hks tp
    simp only [List.foldl_cons]
    rw [hfind k (hks k (List.mem_cons_self _ _))]
    exact ih (fun a ha => hks a (List.mem_cons_of_mem _ ha)) _

theorem find?_filter_le (k : Nat) (hk : k ≤ 13) : ∀ (rs : List TPRecord),
    ((rs.filter (fun r => r.type ≤ 13)).map (fun r => (r.type, interpRecord r))).find?
        (fun p => p.1 = k)
      = (rs.map (fun r => (r.type, interpRecord r))).find? (fun p => p.1 = k) := by
  intro rs
  induction rs with
  | nil => rfl
  | cons r rest ih =>
    by_cases hr : r.type ≤ 13
    · simp only [List.filter_cons]
      rw [if_pos (by simp [hr])]
      simp only [List.map_cons]
      by_cases hrk : r.type = k
      · rw [List.find?_cons_of_pos _ (by simp [hrk]),
          List.find?_cons_of_pos _ (by simp [hrk])]
      · rw [List.find?_cons_of_neg _ (by simp [hrk]),
          List.find?_cons_of_neg _ (by simp [hrk])]
        exact ih
    · simp only [List.filter_cons]
      rw [if_neg (by simp [hr])]
      simp only [List.map_cons]
      rw [List.find?_cons_of_neg _ (by simp; omega)]
      exact ih

end TransportParameters

/-- C6: for every well-formed extension buffer (a concatenation of
`type(2) | length(2) | value(length)` records), fromExtensionBuffer raises
TRANSPORT_PARAMETER_ERROR exactly when some type tag occurs in two records;
and with no duplicate, records whose tag lies outside the
TransportParameterType enum (0x00-0x0d) are ignored: the parse result equals
that of the buffer with those records removed. -/
theorem claim6_theorem (isServer : Bool) (rs : List TransportParameters.TPRecord)
    (hwf : ∀ r ∈ rs, TransportParameters.WFRecord r) :
    (TransportParameters.fromExtensionBuffer isServer (TransportParameters.encodeRecords rs)
        = .error .transportParameterError
      ↔ ¬ (rs.map TransportParameters.TPRecord.type).Nodup)
    ∧ ((rs.map TransportParameters.TPRecord.type).Nodup →
        TransportParameters.fromExtensionBuffer isServer (TransportParameters.encodeRecords rs)
          = TransportParameters.fromExtensionBuffer isServer
              (TransportParameters.encodeRecords
                 (rs.filter (fun r => r.type ≤ 13)))) := by
  have hloop : ∀ (rs' : List TransportParameters.TPRecord),
      TransportParameters.parseLoop (TransportParameters.encodeRecords rs') 0 []
        = TransportParameters.loopModel [] rs' := by
    intro rs'
    have h := TransportParameters.parseLoop_records rs' [] []
    simpa using h
  constructor
  · constructor
    · intro herr
      by_contra hnd
      have hok := TransportParameters.loopModel_ok rs [] (by simpa using hnd)
      unfold TransportParameters.fromExtensionBuffer at herr
      rw [hloop rs, hok] at herr
      cases herr
    · intro hnd
      unfold TransportParameters.fromExtensionBuffer
      rw [hloop rs, TransportParameters.loopModel_error rs [] (by simp) (by simpa using hnd)]
  · intro hnd
    have hnd2 : ((rs.filter (fun r => r.type ≤ 13)).map
        TransportParameters.TPRecord.type).Nodup := by
      have hsub := (List.filter_sublist (l := rs) (p := fun r => r.type ≤ 13)).map
        TransportParameters.TPRecord.type
      exact hsub.nodup hnd
    unfold TransportParameters.fromExtensionBuffer
    rw [hloop rs, hloop _, TransportParameters.loopModel_ok rs [] (by simpa using hnd),
      TransportParameters.loopModel_ok _ [] (by simpa using hnd2)]
    simp only [List.nil_append]
    congr 1
    unfold TransportParameters.applyValues
    exact TransportParameters.foldl_set_congr _ _
      (fun k hk => (TransportParameters.find?_filter_le k (by omega) rs).symm)
      (List.range 14) (fun k hk => List.mem_range.mp hk) _

/-- C6 witness: the no-duplicate direction on a concrete buffer holding
INITIAL_MAX_DATA (tag 0x01) and an unknown tag 0xFF: the unknown record is
ignored. -/
theorem claim6_witness :
    TransportParameters.fromExtensionBuffer false
        (TransportParameters.encodeRecords
          [{ type := 1, value := [0, 0, 0, 5] }, { type := 255, value := [1] }])
      = TransportParameters.fromExtensionBuffer false
          (TransportParameters.encodeRecords
            ([{ type := 1, value := [0, 0, 0, 5] }, { type := 255, value := [1] }].filter
               (fun r => r.type ≤ 13))) :=
  (claim6_theorem false
      [{ type := 1, value := [0, 0, 0, 5] }, { type := 255, value := [1] }]
      (by
        intro r hr
        simp only [List.mem_cons, List.mem_singleton] at hr
        rcases hr with h | h | h
        · rw [h]; exact ⟨by decide, by decide⟩
        · rw [h]; exact ⟨by decide, by decide⟩
        · cases h)).2
    (by decide)

end Quicker
